import Mathlib

/-!
# FlumphBot event-classification and availability-resolution engine

A shallow embedding of `src/flumphbot/calendar/event_analyzer.py` and the
data model of `src/flumphbot/calendar/models.py`.

Modelling choices:
* A Python `datetime` is an `Int`: the number of microseconds since a fixed
  reference midnight.  `replace(hour=0, minute=0, second=0, microsecond=0)`
  becomes flooring to a multiple of `usPerDay`; `timedelta(days=1)` is adding
  `usPerDay`; `(end - start).days` is floor division by `usPerDay` (Python's
  `timedelta.days` is the floor of the total duration in days, also for
  negative durations).  The reference midnight is chosen to fall on a Monday,
  fixing `strftime("%A")`.
* A Python `str` is a `String`; `in` (substring containment) and the
  word-boundary regular-expression search `re.search(rf"\b{re.escape(kw)}\b",
  text, re.IGNORECASE)` are spelled out over `List Char` below.
* Python truthiness of optional arguments (`lst or DEFAULT`) is modelled
  explicitly: `none` and the empty list both fall back to the default.
-/

namespace FlumphBot

/-- Microseconds per calendar day, the granularity of Python `datetime`. -/
def usPerDay : Int := 86400000000

/-- `models.EventStatus`: Google Calendar transparency, busy or free. -/
inductive EventStatus where
  | busy
  | free
deriving DecidableEq, Repr

/-- `models.CalendarEvent`: one calendar item under evaluation. -/
structure CalendarEvent where
  id : String
  summary : String
  start : Int
  «end» : Int
  status : EventStatus
  creator_email : Option String := none
  description : Option String := none
  all_day : Bool := false
deriving DecidableEq, Repr

/-- `models.AvailabilitySlot`: a candidate date for a new session. -/
structure AvailabilitySlot where
  date : Int
  start_time : Option Int := none
  end_time : Option Int := none
deriving DecidableEq, Repr

/-- `event_analyzer.EventCategory`: category of a calendar event. -/
inductive EventCategory where
  | dnd
  | away
  | personal
  | other
deriving DecidableEq, Repr

/-- Python `str.lower()` (ASCII case folding, enough for the configured
keywords and weekday names). -/
def strLower (s : String) : String :=
  String.mk (s.data.map Char.toLower)

/-- Python substring containment `k in s`, over character lists. -/
def strContainsAux (s k : List Char) : Bool :=
  (List.range (s.length + 1)).any (fun i => (s.drop i).take k.length == k)

/-- Python substring containment `k in s` for strings. -/
def strContains (s k : String) : Bool :=
  strContainsAux s.toList k.toList

/-- A regex word character (`\w`): alphanumeric or underscore. -/
def isWordChar (c : Char) : Bool :=
  c.isAlphanum || c == '_'

/-- Word-character test on an optional character; out of range counts as
a non-word character, as the regex engine treats string edges. -/
def optWordChar (oc : Option Char) : Bool :=
  match oc with
  | some c => isWordChar c
  | none => false

/-- Whether the character just before position `i` is a word character. -/
def prevIsWord (s : List Char) (i : Nat) : Bool :=
  match i with
  | 0 => false
  | j + 1 => optWordChar s[j]?

/-- The regex `\b` word boundary at position `i` of `s`: exactly one of the
two adjacent characters is a word character. -/
def atBoundary (s : List Char) (i : Nat) : Bool :=
  prevIsWord s i != optWordChar s[i]?

/-- The pattern `\b k \b` (with `k` a literal) matches `s` at position `i`. -/
def wordMatchAt (s k : List Char) (i : Nat) : Bool :=
  atBoundary s i && atBoundary s (i + k.length) && ((s.drop i).take k.length == k)

/-- `re.search(rf"\b{re.escape(k)}\b", s)`: the word-boundary-anchored
pattern matches somewhere in `s`. -/
def wordSearch (s k : List Char) : Bool :=
  (List.range (s.length + 1)).any (wordMatchAt s k)

/-- `EventAnalyzer.DEFAULT_DND_KEYWORDS`. -/
def DEFAULT_DND_KEYWORDS : List String :=
  ["D&D", "DND", "Dungeons", "Campaign", "Session"]

/-- `EventAnalyzer.DEFAULT_AWAY_KEYWORDS`. -/
def DEFAULT_AWAY_KEYWORDS : List String :=
  ["Away", "Unavailable", "Holiday", "Vacation", "Busy", "PTO", "Time Off",
   "Out of Office", "OOO", "Trip", "Travel"]

/-- `EventAnalyzer.DEFAULT_PERSONAL_KEYWORDS`. -/
def DEFAULT_PERSONAL_KEYWORDS : List String :=
  ["birthday", "doctor", "dentist", "appointment", "interview", "therapy",
   "medical"]

/-- `event_analyzer.EventAnalyzer`: the configured keyword lists. -/
structure EventAnalyzer where
  dnd_keywords : List String
  away_keywords : List String
  personal_keywords : List String
deriving DecidableEq, Repr

/-- Python `arg or dflt` for an optional list argument: `None` and the empty
list are both falsy and fall back to the default. -/
def pyOrDefault (arg : Option (List String)) (dflt : List String) : List String :=
  match arg with
  | none => dflt
  | some l => if l.isEmpty then dflt else l

/-- `EventAnalyzer.__init__`: each keyword list defaults via Python `or`. -/
def mkEventAnalyzer (dnd_keywords away_keywords personal_keywords :
    Option (List String)) : EventAnalyzer :=
  { dnd_keywords := pyOrDefault dnd_keywords DEFAULT_DND_KEYWORDS
    away_keywords := pyOrDefault away_keywords DEFAULT_AWAY_KEYWORDS
    personal_keywords := pyOrDefault personal_keywords DEFAULT_PERSONAL_KEYWORDS }

/-- `EventAnalyzer()` with no arguments: all three default keyword lists. -/
def defaultAnalyzer : EventAnalyzer :=
  mkEventAnalyzer none none none

/-- `EventAnalyzer.is_dnd_session`: any configured D&D keyword occurs as a
substring of the lower-cased title. -/
def EventAnalyzer.is_dnd_session (a : EventAnalyzer) (event : CalendarEvent) : Bool :=
  let title := strLower event.summary
  a.dnd_keywords.any (fun kw => strContains title (strLower kw))

/-- `EventAnalyzer.is_away_event`: any configured away keyword occurs as a
substring of the lower-cased title. -/
def EventAnalyzer.is_away_event (a : EventAnalyzer) (event : CalendarEvent) : Bool :=
  let title := strLower event.summary
  a.away_keywords.any (fun kw => strContains title (strLower kw))

/-- `EventAnalyzer.detect_personal_keywords`: word-boundary-anchored
case-insensitive search of each configured personal keyword over the
lower-cased concatenation of summary and description. -/
def EventAnalyzer.detect_personal_keywords (a : EventAnalyzer)
    (event : CalendarEvent) : List String :=
  let text := strLower (event.summary ++ " " ++ event.description.getD "")
  a.personal_keywords.filter (fun keyword =>
    wordSearch text.toList (strLower keyword).toList)

/-- `EventAnalyzer.get_category`: D&D first, then away, then personal,
then other. -/
def EventAnalyzer.get_category (a : EventAnalyzer) (event : CalendarEvent) :
    EventCategory :=
  if a.is_dnd_session event then EventCategory.dnd
  else if a.is_away_event event then EventCategory.away
  else if !(a.detect_personal_keywords event).isEmpty then EventCategory.personal
  else EventCategory.other

/-- `EventAnalyzer.should_be_free`: only D&D sessions stay busy. -/
def EventAnalyzer.should_be_free (a : EventAnalyzer) (event : CalendarEvent) : Bool :=
  !(a.is_dnd_session event)

/-- `event_analyzer.AnalysisResult`: the classifier's verdict for one event. -/
structure AnalysisResult where
  event : CalendarEvent
  should_be_free : Bool
  is_personal : Bool
  is_dnd_session : Bool
  matched_keywords : List String
  category : EventCategory := EventCategory.other
deriving DecidableEq, Repr

/-- `EventAnalyzer.analyze_event`: full analysis of one event. -/
def EventAnalyzer.analyze_event (a : EventAnalyzer) (event : CalendarEvent) :
    AnalysisResult :=
  let is_dnd := a.is_dnd_session event
  let matched_keywords := a.detect_personal_keywords event
  let category := a.get_category event
  { event := event
    should_be_free := a.should_be_free event
    is_personal := matched_keywords.length > 0
    is_dnd_session := is_dnd
    matched_keywords := matched_keywords
    category := category }

/-- `EventAnalyzer.find_events_needing_fix`: events that should be free but
are currently busy. -/
def EventAnalyzer.find_events_needing_fix (a : EventAnalyzer)
    (events : List CalendarEvent) : List CalendarEvent :=
  events.filter (fun event =>
    a.should_be_free event && event.status == EventStatus.busy)

/-- `EventAnalyzer.find_personal_events`: analysis results with a personal
keyword match. -/
def EventAnalyzer.find_personal_events (a : EventAnalyzer)
    (events : List CalendarEvent) : List AnalysisResult :=
  (events.map a.analyze_event).filter (fun result => result.is_personal)

/-- `dt.replace(hour=0, minute=0, second=0, microsecond=0)`: truncation of a
timestamp to the midnight that begins its calendar day. -/
def truncDay (t : Int) : Int :=
  usPerDay * (t.fdiv usPerDay)

/-- English weekday names as `strftime("%A")` produces them, starting from
the weekday of the reference midnight (chosen to be a Monday). -/
def dayNames : List String :=
  ["Monday", "Tuesday", "Wednesday", "Thursday", "Friday", "Saturday", "Sunday"]

/-- `dt.strftime("%A")`: the weekday name of a timestamp. -/
def weekdayName (t : Int) : String :=
  dayNames.getD ((t.fdiv usPerDay).emod 7).toNat ""

/-- The `preferred_day` filter of `find_available_dates`: Python keeps the
day unless `preferred_day` is truthy and its lower-cased value differs from
the day's lower-cased weekday name.  An empty string is falsy. -/
def passesPreferredDay (preferred_day : Option String) (current : Int) : Bool :=
  match preferred_day with
  | none => true
  | some pd => if pd == "" then true else strLower (weekdayName current) == strLower pd

/-- One iteration of the `find_available_dates` loop: at step `i` the running
day is `current0` advanced by `i + 1` days (the loop adds a day before any
check); a blocked day or a failed weekday filter contributes nothing,
otherwise the day becomes a slot with no time of day. -/
def fadStep (blocked_dates : List Int) (current0 : Int)
    (preferred_day : Option String) (i : Nat) : Option AvailabilitySlot :=
  let current := current0 + usPerDay * ((i : Int) + 1)
  if blocked_dates.contains current then none
  else if !passesPreferredDay preferred_day current then none
  else some { date := current, start_time := none, end_time := none }

/-- `EventAnalyzer.find_available_dates`: block every event's start day, then
step one day at a time for `days_ahead` iterations from the day after the
truncated `start_date`, keeping unblocked days that pass the weekday filter.
Python's `range(days_ahead)` is empty for a non-positive argument. -/
def EventAnalyzer.find_available_dates (_a : EventAnalyzer)
    (events : List CalendarEvent) (start_date : Int) (days_ahead : Int)
    (preferred_day : Option String) : List AvailabilitySlot :=
  let blocked_dates : List Int := events.map (fun event => truncDay event.start)
  let current0 := truncDay start_date
  (List.range days_ahead.toNat).filterMap (fadStep blocked_dates current0 preferred_day)

/-- `EventAnalyzer.find_away_events`: keyword match, or (elif) a multi-day
all-day event. -/
def EventAnalyzer.find_away_events (a : EventAnalyzer)
    (events : List CalendarEvent) : List CalendarEvent :=
  events.filter (fun event =>
    if a.is_away_event event then true
    else if event.all_day && decide (1 < (event.«end» - event.start).fdiv usPerDay)
      then true
    else false)

/-- `EventAnalyzer.find_vacation_events`: deprecated alias; the
`vacation_keywords` argument is ignored by the source. -/
def EventAnalyzer.find_vacation_events (a : EventAnalyzer)
    (events : List CalendarEvent)
    (_vacation_keywords : Option (List String)) : List CalendarEvent :=
  a.find_away_events events

/-! ## Concrete events for the spec's scenarios -/

/-- The D&D session of the four-event round-trip scenario. -/
def evDndSession : CalendarEvent :=
  { id := "1", summary := "D&D Session", start := 3 * usPerDay,
    «end» := 3 * usPerDay + 14400000000, status := EventStatus.busy }

/-- The seven-day all-day vacation of the round-trip scenario. -/
def evVacationHawaii : CalendarEvent :=
  { id := "2", summary := "Vacation in Hawaii", start := 7 * usPerDay,
    «end» := 14 * usPerDay, status := EventStatus.busy, all_day := true }

/-- The doctor appointment of the round-trip scenario. -/
def evDoctorAppt : CalendarEvent :=
  { id := "3", summary := "Doctor appointment", start := 2 * usPerDay,
    «end» := 2 * usPerDay + 3600000000, status := EventStatus.busy }

/-- The already-free team meeting of the round-trip scenario. -/
def evTeamMeeting : CalendarEvent :=
  { id := "4", summary := "Team meeting", start := usPerDay,
    «end» := usPerDay + 3600000000, status := EventStatus.free }

/-- The four-event round-trip scenario list. -/
def scenarioEvents : List CalendarEvent :=
  [evDndSession, evVacationHawaii, evDoctorAppt, evTeamMeeting]

/-- A three-day all-day event whose title matches no away keyword. -/
def evCabinWeek : CalendarEvent :=
  { id := "5", summary := "Cabin week", start := 0, «end» := 3 * usPerDay,
    status := EventStatus.busy, all_day := true }

/-- A one-day all-day event whose title matches no away keyword. -/
def evCabinDay : CalendarEvent :=
  { id := "6", summary := "Cabin day", start := 0, «end» := usPerDay,
    status := EventStatus.busy, all_day := true }

/-- An event whose title holds "date" only inside the word "Updated". -/
def evUpdatedPlans : CalendarEvent :=
  { id := "7", summary := "Updated plans", start := 0, «end» := usPerDay,
    status := EventStatus.busy }

/-- An event with a whole-word, differently-cased "doctor" occurrence. -/
def evDoctorsVisit : CalendarEvent :=
  { id := "8", summary := "Doctor's visit", start := 0, «end» := usPerDay,
    status := EventStatus.busy }

/-- A title matching a D&D keyword, an away keyword and a personal keyword. -/
def evAllCategories : CalendarEvent :=
  { id := "9", summary := "D&D Vacation doctor", start := 0, «end» := usPerDay,
    status := EventStatus.busy }

/-! ## Facts about day truncation -/

theorem usPerDay_pos : (0 : Int) < usPerDay := by norm_num [usPerDay]

theorem truncDay_le (t : Int) : truncDay t ≤ t := by
  have h := Int.fmod_add_fdiv t usPerDay
  have hnn := Int.fmod_nonneg' t usPerDay_pos
  unfold truncDay
  linarith

theorem lt_truncDay_add_usPerDay (t : Int) : t < truncDay t + usPerDay := by
  have h := Int.fmod_add_fdiv t usPerDay
  have hlt := Int.fmod_lt_of_pos t usPerDay_pos
  unfold truncDay
  linarith

/-! ## The availability loop body -/

theorem not_mem_of_contains_eq_false {l : List Int} {x : Int}
    (h : l.contains x = false) : x ∉ l := by
  intro hm
  have h2 : List.elem x l = true := List.elem_iff.mpr hm
  simp only [List.contains] at h
  cases h2.symm.trans h

theorem fadStep_eq_some {blocked : List Int} {current0 : Int}
    {pd : Option String} {i : Nat} {s : AvailabilitySlot}
    (h : fadStep blocked current0 pd i = some s) :
    s = { date := current0 + usPerDay * ((i : Int) + 1) } ∧
    blocked.contains s.date = false := by
  simp only [fadStep] at h
  split at h
  · cases h
  · next h1 =>
    split at h
    · cases h
    · cases h
      exact ⟨rfl, by simpa using h1⟩

theorem mem_find_available_dates {a : EventAnalyzer}
    {events : List CalendarEvent} {start_date days_ahead : Int}
    {preferred_day : Option String} {s : AvailabilitySlot}
    (hs : s ∈ a.find_available_dates events start_date days_ahead preferred_day) :
    ∃ i : Nat, i < days_ahead.toNat ∧
      s.date = truncDay start_date + usPerDay * ((i : Int) + 1) ∧
      ∀ e ∈ events, truncDay e.start ≠ s.date := by
  simp only [EventAnalyzer.find_available_dates, List.mem_filterMap,
    List.mem_range] at hs
  obtain ⟨i, hi, hf⟩ := hs
  obtain ⟨rfl, hc⟩ := fadStep_eq_some hf
  refine ⟨i, hi, rfl, fun e he hEq => ?_⟩
  exact not_mem_of_contains_eq_false hc (List.mem_map.mpr ⟨e, he, hEq⟩)

/-! ## The claims -/

/-- C1 counterexample: an analyzer constructed with empty keyword lists does
not always fail to match — `__init__`'s `keywords or DEFAULT` treats the
empty list as falsy and installs the default keywords, so a "Session 42"
event is still detected as a D&D session. -/
theorem c1_counterexample_empty_construction :
    (mkEventAnalyzer (some []) (some []) (some [])).is_dnd_session
      { id := "1", summary := "Session 42", start := 0, «end» := usPerDay,
        status := EventStatus.busy } = true := by decide

/-- C1 (amended): when the analyzer's configured keyword list for a category
is empty, matching against that category always fails: `is_dnd_session` and
`is_away_event` are false and `detect_personal_keywords` is empty for every
event.  Construction with an empty (or absent) list argument however falls
back to the defaults, so such a state never arises through `__init__`. -/
theorem c1_empty_keyword_lists (a : EventAnalyzer) (event : CalendarEvent) :
    (a.dnd_keywords = [] → a.is_dnd_session event = false) ∧
    (a.away_keywords = [] → a.is_away_event event = false) ∧
    (a.personal_keywords = [] → a.detect_personal_keywords event = []) ∧
    mkEventAnalyzer (some []) (some []) (some []) = defaultAnalyzer := by
  refine ⟨fun h => ?_, fun h => ?_, fun h => ?_, rfl⟩ <;>
    simp [EventAnalyzer.is_dnd_session, EventAnalyzer.is_away_event,
      EventAnalyzer.detect_personal_keywords, h]

/-- C2: `find_available_dates` returns only dates strictly after
`start_date`, at most `days_ahead` of them, none equal to the
midnight-truncated start day of any input event, and in strictly ascending
chronological order. -/
theorem c2_find_available_dates_bounds (a : EventAnalyzer)
    (events : List CalendarEvent) (start_date days_ahead : Int)
    (preferred_day : Option String) :
    (∀ s ∈ a.find_available_dates events start_date days_ahead preferred_day,
      start_date < s.date) ∧
    (a.find_available_dates events start_date days_ahead preferred_day).length
      ≤ days_ahead.toNat ∧
    (∀ s ∈ a.find_available_dates events start_date days_ahead preferred_day,
      ∀ e ∈ events, s.date ≠ truncDay e.start) ∧
    List.Pairwise (fun s t : AvailabilitySlot => s.date < t.date)
      (a.find_available_dates events start_date days_ahead preferred_day) := by
  refine ⟨?_, ?_, ?_, ?_⟩
  · intro s hs
    obtain ⟨i, hi, hd, hc⟩ := mem_find_available_dates hs
    have h1 := lt_truncDay_add_usPerDay start_date
    have h2 : usPerDay ≤ usPerDay * ((i : Int) + 1) := by
      have hnn : (0 : Int) ≤ (i : Int) := Int.natCast_nonneg i
      nlinarith [usPerDay_pos]
    rw [hd]
    linarith
  · simp only [EventAnalyzer.find_available_dates]
    exact (List.length_filterMap_le _ _).trans (List.length_range _).le
  · intro s hs e he
    obtain ⟨i, hi, hd, hc⟩ := mem_find_available_dates hs
    exact fun hEq => hc e he hEq.symm
  · simp only [EventAnalyzer.find_available_dates]
    rw [List.pairwise_filterMap]
    refine (List.pairwise_lt_range _).imp ?_
    intro i j hij s hs t ht
    rw [Option.mem_def] at hs ht
    obtain ⟨rfl, -⟩ := fadStep_eq_some hs
    obtain ⟨rfl, -⟩ := fadStep_eq_some ht
    have hlt : ((i : Int) + 1) < ((j : Int) + 1) := by
      have : (i : Int) < (j : Int) := by exact_mod_cast hij
      linarith
    have := mul_lt_mul_of_pos_left hlt usPerDay_pos
    simpa using this

/-- C6: `should_be_free` is exactly the negation of `is_dnd_session`, so
every event that is not a D&D session should be free. -/
theorem c6_should_be_free_not_dnd (a : EventAnalyzer) (event : CalendarEvent) :
    a.should_be_free event = !(a.is_dnd_session event) ∧
    (a.is_dnd_session event = false → a.should_be_free event = true) := by
  refine ⟨rfl, fun h => ?_⟩
  simp [EventAnalyzer.should_be_free, h]

/-- C8: `find_available_dates` tolerates degenerate inputs: a non-positive
`days_ahead` yields the empty list, and an empty event list with no
preferred day yields exactly `days_ahead` sequential dates beginning the day
after `start_date`. -/
theorem c8_find_available_dates_degenerate (a : EventAnalyzer)
    (events : List CalendarEvent) (start_date days_ahead : Int)
    (preferred_day : Option String) :
    (days_ahead ≤ 0 →
      a.find_available_dates events start_date days_ahead preferred_day = []) ∧
    (a.find_available_dates [] start_date days_ahead none).length
      = days_ahead.toNat ∧
    a.find_available_dates [] start_date days_ahead none =
      (List.range days_ahead.toNat).map (fun i =>
        { date := truncDay start_date + usPerDay * ((i : Int) + 1) }) := by
  have h3 : a.find_available_dates [] start_date days_ahead none =
      (List.range days_ahead.toNat).map (fun i =>
        { date := truncDay start_date + usPerDay * ((i : Int) + 1) }) := by
    simp only [EventAnalyzer.find_available_dates, List.map_nil]
    rw [show fadStep [] (truncDay start_date) none =
        (some ∘ fun i : Nat =>
          ({ date := truncDay start_date + usPerDay * ((i : Int) + 1) } :
            AvailabilitySlot)) from
      funext fun i => by simp [fadStep, passesPreferredDay]]
    rw [List.filterMap_eq_map]
  refine ⟨fun h => ?_, ?_, h3⟩
  · have h0 : days_ahead.toNat = 0 := Int.toNat_of_nonpos h
    simp only [EventAnalyzer.find_available_dates, h0, List.range_zero,
      List.filterMap_nil]
  · rw [h3, List.length_map, List.length_range]

/-- C9: `find_vacation_events` ignores its `vacation_keywords` argument
entirely and returns exactly `find_away_events` of the same event list. -/
theorem c9_find_vacation_events_eq (a : EventAnalyzer)
    (events : List CalendarEvent) (vacation_keywords : Option (List String)) :
    a.find_vacation_events events vacation_keywords = a.find_away_events events :=
  rfl

/-- C3: `find_away_events` keeps exactly the events that match an away
keyword or are all-day and span more than one calendar day; the multi-day
all-day `evCabinWeek` is kept with zero keyword matches while the single-day
all-day `evCabinDay` is dropped. -/
theorem c3_find_away_events_characterization (a : EventAnalyzer)
    (events : List CalendarEvent) :
    (∀ e, e ∈ a.find_away_events events ↔
      e ∈ events ∧ (a.is_away_event e = true ∨
        (e.all_day = true ∧ 1 < (e.«end» - e.start).fdiv usPerDay))) ∧
    defaultAnalyzer.find_away_events [evCabinWeek, evCabinDay]
      = [evCabinWeek] := by
  refine ⟨fun e => ?_, by decide⟩
  simp only [EventAnalyzer.find_away_events, List.mem_filter]
  refine and_congr_right fun _ => ?_
  by_cases h1 : a.is_away_event e = true <;>
    by_cases h2 : e.all_day = true <;>
      by_cases h3 : 1 < (e.«end» - e.start).fdiv usPerDay <;>
        simp [h1, h2, h3]

/-- C4: `get_category` decides in priority order with first match winning
(D&D, then away, then personal, then other), and any configured D&D keyword
occurring case-insensitively as a substring of the title forces the D&D
category no matter what else matches. -/
theorem c4_get_category_priority (a : EventAnalyzer) (event : CalendarEvent) :
    (a.is_dnd_session event = true →
      a.get_category event = EventCategory.dnd) ∧
    (a.is_dnd_session event = false → a.is_away_event event = true →
      a.get_category event = EventCategory.away) ∧
    (a.is_dnd_session event = false → a.is_away_event event = false →
      (a.detect_personal_keywords event).isEmpty = false →
      a.get_category event = EventCategory.personal) ∧
    (a.is_dnd_session event = false → a.is_away_event event = false →
      (a.detect_personal_keywords event).isEmpty = true →
      a.get_category event = EventCategory.other) ∧
    (∀ kw ∈ a.dnd_keywords,
      strContains (strLower event.summary) (strLower kw) = true →
      a.get_category event = EventCategory.dnd) := by
  refine ⟨fun h1 => ?_, fun h1 h2 => ?_, fun h1 h2 h3 => ?_,
    fun h1 h2 h3 => ?_, fun kw hkw hc => ?_⟩
  · simp [EventAnalyzer.get_category, h1]
  · simp [EventAnalyzer.get_category, h1, h2]
  · simp [EventAnalyzer.get_category, h1, h2, h3]
  · simp [EventAnalyzer.get_category, h1, h2, h3]
  · have hd : a.is_dnd_session event = true := by
      simp only [EventAnalyzer.is_dnd_session]
      exact List.any_eq_true.mpr ⟨kw, hkw, hc⟩
    simp [EventAnalyzer.get_category, hd]

/-- C5: `detect_personal_keywords` matches word-boundary-anchored and
case-insensitively over summary plus description, returning the matches as a
subsequence of the configured list: "Updated plans" does not match the
keyword "date", while "Doctor's visit" matches "doctor" under the default
configuration. -/
theorem c5_detect_personal_keywords_behaviour (a : EventAnalyzer)
    (event : CalendarEvent) :
    (a.detect_personal_keywords event).Sublist a.personal_keywords ∧
    (∀ kw, kw ∈ a.detect_personal_keywords event ↔
      kw ∈ a.personal_keywords ∧
      wordSearch
        (strLower (event.summary ++ " " ++ event.description.getD "")).toList
        (strLower kw).toList = true) ∧
    (EventAnalyzer.mk [] [] ["date"]).detect_personal_keywords evUpdatedPlans
      = [] ∧
    defaultAnalyzer.detect_personal_keywords evDoctorsVisit = ["doctor"] := by
  refine ⟨List.filter_sublist _, fun kw => ?_, by decide, by decide⟩
  simp only [EventAnalyzer.detect_personal_keywords, List.mem_filter]

/-- C7: `find_events_needing_fix` keeps exactly, in input order, the busy
events that should be free; on the spec's four-event scenario it returns the
vacation and the doctor appointment only. -/
theorem c7_find_events_needing_fix_characterization (a : EventAnalyzer)
    (events : List CalendarEvent) :
    (∀ e, e ∈ a.find_events_needing_fix events ↔
      e ∈ events ∧ a.should_be_free e = true ∧ e.status = EventStatus.busy) ∧
    (a.find_events_needing_fix events).Sublist events ∧
    (defaultAnalyzer.find_events_needing_fix scenarioEvents).map
      CalendarEvent.summary = ["Vacation in Hawaii", "Doctor appointment"] := by
  refine ⟨fun e => ?_, List.filter_sublist _, by decide⟩
  simp only [EventAnalyzer.find_events_needing_fix, List.mem_filter,
    Bool.and_eq_true, beq_iff_eq]

/-- C10: every `analyze_event` result is internally consistent:
`should_be_free` is the negation of `is_dnd_session`, `is_personal` holds
exactly when `matched_keywords` is non-empty, and the category is D&D
exactly when `is_dnd_session` is true. -/
theorem c10_analyze_event_consistent (a : EventAnalyzer)
    (event : CalendarEvent) :
    (a.analyze_event event).should_be_free
      = !(a.analyze_event event).is_dnd_session ∧
    ((a.analyze_event event).is_personal = true ↔
      (a.analyze_event event).matched_keywords ≠ []) ∧
    ((a.analyze_event event).category = EventCategory.dnd ↔
      (a.analyze_event event).is_dnd_session = true) := by
  refine ⟨rfl, ?_, ?_⟩
  · simp only [EventAnalyzer.analyze_event]
    simp [List.length_pos]
  · simp only [EventAnalyzer.analyze_event]
    constructor
    · intro h
      by_cases hd : a.is_dnd_session event = true
      · exact hd
      · exfalso
        rw [Bool.not_eq_true] at hd
        by_cases ha : a.is_away_event event = true <;>
          by_cases hp : (a.detect_personal_keywords event).isEmpty = true <;>
            simp [EventAnalyzer.get_category, hd, ha, hp] at h
    · intro h
      simp [EventAnalyzer.get_category, h]

end FlumphBot
